import Mathlib

/-!
Formal model of the AST-based Python code analyzer in `chat.py`
(`CodeAnalyzer`, `analyze_python_file`, `generate_summary_text`,
`find_python_files`, and the comparison deltas of `compare_files_command`).

Source text is modelled as `String` / `List Char`; Python's `ast` node shapes
relevant to the analyzer are modelled by the inductives `PExpr` and `Stmt`;
the visitor's mutable state is the structure `CodeAnalyzer`, threaded
explicitly through the traversal.
-/

namespace Nova

/-- Characters treated as whitespace by Python's `str.strip()` / `str.lstrip()`
(the ASCII whitespace characters; exotic Unicode whitespace is not modelled). -/
def isPySpace (c : Char) : Bool :=
  c = ' ' || c = '\t' || c = '\n' || c = '\r' || c = '\x0b' || c = '\x0c'

/-- Python `str.lstrip()` on a character list. -/
def lstripChars (l : List Char) : List Char := l.dropWhile isPySpace

/-- Python `str.rstrip()` on a character list. -/
def rstripChars (l : List Char) : List Char := (l.reverse.dropWhile isPySpace).reverse

/-- Python `str.strip()` on a character list. -/
def stripChars (l : List Char) : List Char := rstripChars (lstripChars l)

/-- Helper for `splitNl`: prepend a character to the first segment. -/
def prependFirst (c : Char) : List (List Char) → List (List Char)
  | [] => [[c]]
  | l :: ls => (c :: l) :: ls

/-- Python `str.split('\n')` on a character list: the newline-delimited
segments; the empty text yields one empty segment. -/
def splitNl : List Char → List (List Char)
  | [] => [[]]
  | c :: rest =>
    if c = '\n' then [] :: splitNl rest else prependFirst c (splitNl rest)

theorem splitNl_ne_nil (l : List Char) : splitNl l ≠ [] := by
  cases l with
  | nil => simp [splitNl]
  | cons c rest =>
    simp only [splitNl]
    split
    · simp
    · cases h : splitNl rest <;> simp [prependFirst]

theorem prependFirst_length (c : Char) (ls : List (List Char)) (h : ls ≠ []) :
    (prependFirst c ls).length = ls.length := by
  cases ls with
  | nil => exact absurd rfl h
  | cons l rest => simp [prependFirst]

/-- The number of newline-delimited segments is the newline count plus one. -/
theorem splitNl_length (l : List Char) :
    (splitNl l).length = l.count '\n' + 1 := by
  induction l with
  | nil => simp [splitNl]
  | cons c rest ih =>
    simp only [splitNl]
    by_cases hc : c = '\n'
    · subst hc
      simp [List.count_cons, ih]
    · rw [if_neg hc, prependFirst_length c _ (splitNl_ne_nil rest), ih,
        List.count_cons, if_neg (by simpa using hc)]

/-- Python `str.expandtabs()` with the default tab size 8: a tab advances the
column to the next multiple of 8; newline and carriage return reset it. -/
def expandTabsAux : List Char → Nat → List Char
  | [], _ => []
  | c :: rest, col =>
    if c = '\t' then
      let n := 8 - col % 8
      List.replicate n ' ' ++ expandTabsAux rest (col + n)
    else if c = '\n' || c = '\r' then c :: expandTabsAux rest 0
    else c :: expandTabsAux rest (col + 1)

/-- The minimum indentation over the non-blank lines, `none` when every line is
blank (the `sys.maxsize` sentinel of `inspect.cleandoc`). -/
def marginOf (lines : List (List Char)) : Option Nat :=
  lines.foldl
    (fun m line =>
      if (lstripChars line).isEmpty then m
      else
        let ind := line.length - (lstripChars line).length
        match m with
        | none => some ind
        | some k => some (min k ind))
    none

/-- Remove trailing blank lines (`while lines and not lines[-1]: lines.pop()`). -/
def dropTrailingBlank (lines : List (List Char)) : List (List Char) :=
  (lines.reverse.dropWhile List.isEmpty).reverse

/-- Remove leading blank lines (`while lines and not lines[0]: lines.pop(0)`). -/
def dropLeadingBlank (lines : List (List Char)) : List (List Char) :=
  lines.dropWhile List.isEmpty

/-- Python `inspect.cleandoc`, as applied by `ast.get_docstring(node)` (whose
default is `clean=True`): expand tabs, split into lines, left-strip the first
line, remove the common indentation margin of the remaining non-blank lines,
and drop trailing then leading blank lines. -/
def cleandoc (doc : String) : String :=
  match splitNl (expandTabsAux doc.data 0) with
  | [] => ""
  | first :: rest =>
    let rest2 :=
      match marginOf rest with
      | none => rest
      | some mg => rest.map fun line => line.drop mg
    String.mk (List.intercalate ['\n']
      (dropLeadingBlank (dropTrailingBlank (lstripChars first :: rest2))))

/-! The abstract syntax tree: Python `ast` node shapes, restricted to what
`CodeAnalyzer` distinguishes. -/

/-- Expression nodes. `constStr` is `ast.Constant` carrying a `str` value,
`constOther` any other `ast.Constant`; `tuple` and `subscript` stand in for the
expression shapes the analyzer only ever passes through or falls back on. -/
inductive PExpr where
  | name (id : String)
  | attribute (value : PExpr) (attr : String)
  | call (func : PExpr) (args : List PExpr)
  | constStr (s : String)
  | constOther
  | tuple (elts : List PExpr)
  | subscript (value : PExpr)

/-- Statement nodes. `functionDef` covers both `ast.FunctionDef`
(`isAsync = false`) and `ast.AsyncFunctionDef` (`isAsync = true`), since
`visit_AsyncFunctionDef` delegates to `visit_FunctionDef` and the only
difference observed is `isinstance(node, ast.AsyncFunctionDef)`; its `args`
field models the positional parameter names `node.args.args`. `compound`
models every other compound statement (`if`/`for`/`while`/`try`/`with`, ...)
with its nested statements gathered into one list, since `generic_visit`
recurses into all of them uniformly. -/
inductive Stmt where
  | functionDef (isAsync : Bool) (name : String) (args : List String)
      (decoratorList : List PExpr) (body : List Stmt) (lineno : Nat)
  | classDef (name : String) (bases : List PExpr) (body : List Stmt) (lineno : Nat)
  | importStmt (names : List String)
  | importFrom (module : Option String) (names : List String)
  | assign (targets : List PExpr) (value : PExpr)
  | exprStmt (value : PExpr)
  | compound (body : List Stmt)

/-- The `ast` class name of an expression node, as printed by `str(node)`. -/
def astKindName : PExpr → String
  | .name _ => "Name"
  | .attribute _ _ => "Attribute"
  | .call _ _ => "Call"
  | .constStr _ => "Constant"
  | .constOther => "Constant"
  | .tuple _ => "Tuple"
  | .subscript _ => "Subscript"

/-- Python `str(node)` on an `ast` node: the default object rendering
`"<ast.Kind object at 0x...>"`; the memory address is not representable in
this model and is elided. Note this renders the node object, not the
expression's source text. -/
def strNode (e : PExpr) : String := "<ast." ++ astKindName e ++ " object>"

/-- `CodeAnalyzer._get_name` (chat.py lines 162-168): a bare name resolves to
itself, an attribute access recursively to `<base>.<attr>`, and anything else
to `str(node)`. -/
def get_name : PExpr → String
  | .name id0 => id0
  | .attribute v attr => get_name v ++ "." ++ attr
  | e => strNode e

/-- `CodeAnalyzer._get_decorator_name` (chat.py lines 154-160): a bare name
resolves to itself, a call resolves its callee via `_get_name`, and anything
else (including a bare attribute access) to `str(decorator)`. -/
def get_decorator_name : PExpr → String
  | .name id0 => id0
  | .call f _ => get_name f
  | d => strNode d

/-! The facts the visitor gathers, and its state. -/

/-- The per-function record built by `visit_FunctionDef` (chat.py lines
106-113). -/
structure FunctionInfo where
  name : String
  args : List String
  decorators : List String
  docstring : Option String
  line_number : Nat
  is_async : Bool
deriving DecidableEq

/-- The per-class record built by `visit_ClassDef` (chat.py lines 125-131). -/
structure ClassInfo where
  name : String
  bases : List String
  methods : List String
  docstring : Option String
  line_number : Nat
deriving DecidableEq

/-- `ast.get_docstring(node)` applied to a node with the given statement body:
`some (cleandoc s)` when the first body statement is an expression statement
holding a string constant `s`, `none` otherwise. -/
def get_docstring : List Stmt → Option String
  | Stmt.exprStmt (PExpr.constStr s) :: _ => some (cleandoc s)
  | _ => none

/-- `[n.name for n in node.body if isinstance(n, (ast.FunctionDef,
ast.AsyncFunctionDef))]` (chat.py line 124). -/
def methodNames (body : List Stmt) : List String :=
  body.filterMap fun s =>
    match s with
    | .functionDef _ n _ _ _ _ => some n
    | _ => none

/-- The `FunctionInfo` dict built by `visit_FunctionDef` for a function node
with the given fields. -/
def funcInfoOf (isAsync : Bool) (name : String) (args : List String)
    (decoratorList : List PExpr) (body : List Stmt) (lineno : Nat) : FunctionInfo :=
  { name := name
    args := args
    decorators := decoratorList.map get_decorator_name
    docstring := get_docstring body
    line_number := lineno
    is_async := isAsync }

/-- The `ClassInfo` dict built by `visit_ClassDef` for a class node with the
given fields. -/
def classInfoOf (name : String) (bases : List PExpr) (body : List Stmt)
    (lineno : Nat) : ClassInfo :=
  { name := name
    bases := bases.map get_name
    methods := methodNames body
    docstring := get_docstring body
    line_number := lineno }

/-- The mutable state of the `CodeAnalyzer` visitor (chat.py lines 90-96),
threaded explicitly. -/
structure CodeAnalyzer where
  functions : List FunctionInfo
  classes : List ClassInfo
  imports : List String
  global_vars : List String
  docstring : Option String
  complexity_score : Nat
deriving DecidableEq

/-- The state after `CodeAnalyzer.__init__`. -/
def initAnalyzer : CodeAnalyzer :=
  { functions := [], classes := [], imports := [], global_vars := []
    docstring := none, complexity_score := 0 }

/-- The simple-name assignment targets recorded by `visit_Assign`
(chat.py lines 149-151): only `ast.Name` targets contribute. -/
def nameTargets (targets : List PExpr) : List String :=
  targets.filterMap fun t =>
    match t with
    | .name id0 => some id0
    | _ => none

mutual

/-- `CodeAnalyzer.visit` dispatched on the statement node kind, followed by
the `generic_visit` recursion each handler performs (chat.py lines 104-152):
  * `visit_FunctionDef` / `visit_AsyncFunctionDef`: append the function dict,
    add `len(node.body)` to the complexity score, recurse into the body;
  * `visit_ClassDef`: append the class dict, add `2 * len(methods)`, recurse;
  * `visit_Import` / `visit_ImportFrom`: append the names (`from m import x`
    records `f"{module}.{x}"` with `module = node.module or ''`), no recursion;
  * `visit_Assign`: append the `ast.Name` target ids, recurse (the recursion
    only meets expressions, which carry no visitable state);
  * any other statement: `generic_visit`, i.e. recurse into nested statements. -/
def visit (st : CodeAnalyzer) : Stmt → CodeAnalyzer
  | .functionDef isAsync name args decs body line =>
    visitList
      { st with
        functions := st.functions ++ [funcInfoOf isAsync name args decs body line]
        complexity_score := st.complexity_score + body.length }
      body
  | .classDef name bases body line =>
    visitList
      { st with
        classes := st.classes ++ [classInfoOf name bases body line]
        complexity_score := st.complexity_score + (methodNames body).length * 2 }
      body
  | .importStmt names => { st with imports := st.imports ++ names }
  | .importFrom module names =>
    { st with
      imports := st.imports ++ names.map fun n => module.getD "" ++ "." ++ n }
  | .assign targets _ => { st with global_vars := st.global_vars ++ nameTargets targets }
  | .exprStmt _ => st
  | .compound body => visitList st body

/-- Visit a statement list in order (the relevant part of `generic_visit`). -/
def visitList (st : CodeAnalyzer) : List Stmt → CodeAnalyzer
  | [] => st
  | s :: rest => visitList (visit st s) rest

end

/-- `visit_Module` (chat.py lines 98-102) followed by the `generic_visit`
recursion into the module body: the docstring field is set only when
`ast.get_docstring(node)` is truthy, i.e. present and non-empty. -/
def visitModule (body : List Stmt) : CodeAnalyzer :=
  let st :=
    match get_docstring body with
    | some d => if d = "" then initAnalyzer else { initAnalyzer with docstring := some d }
    | none => initAnalyzer
  visitList st body

/-! The function `analyze_python_file` and its result. -/

/-- Python `list(set(xs))` on a list of strings: the distinct elements.
CPython iterates a set in hash order, which is not part of the language
contract; the model keeps the elements' deduplicated order abstract only up to
that caveat and uses `List.dedup`. -/
def listSet (xs : List String) : List String := xs.dedup

/-- `os.path.basename`: the final path component after the last `/`. -/
def basename (p : String) : String := (p.splitOn "/").getLastD ""

/-- Whether a raw source line survives the code-line count of chat.py line
184: its stripped content is non-empty and does not start with `#`. -/
def isCodeLine (line : List Char) : Bool :=
  !(stripChars line).isEmpty && (stripChars line).head? != some '#'

/-- The success-state summary dict built by `analyze_python_file`
(chat.py lines 186-196). -/
structure Summary where
  filename : String
  total_lines : Nat
  code_lines : Nat
  functions : List FunctionInfo
  classes : List ClassInfo
  imports : List String
  global_vars : List String
  docstring : Option String
  complexity : Nat
deriving DecidableEq

/-- The summary built from a filepath, the raw source text and its parsed
tree (chat.py lines 177-196). -/
def mkSummary (filepath : String) (code : String) (tree : List Stmt) : Summary :=
  let analyzer := visitModule tree
  let lines := splitNl code.data
  { filename := basename filepath
    total_lines := lines.length
    code_lines := (lines.filter isCodeLine).length
    functions := analyzer.functions
    classes := analyzer.classes
    imports := listSet analyzer.imports
    global_vars := listSet analyzer.global_vars
    docstring := analyzer.docstring
    complexity := analyzer.complexity_score }

/-- The two mutually exclusive shapes `analyze_python_file` returns: the
success summary dict, or a dict holding only an `'error'` message. -/
inductive AnalysisResult where
  | ok (summary : Summary)
  | error (msg : String)
deriving DecidableEq

/-- `analyze_python_file` (chat.py lines 171-203). The two effectful steps are
modelled as oracle inputs: `readResult` is the outcome of opening and reading
the file as UTF-8 (`Except.error` carries the I/O or decoding failure's
message), and `parseResult` is the outcome of `ast.parse` on the text read
(`Except.error` carries the `SyntaxError`'s message). The `try`/`except`
blocks become the `Except` matches: a `SyntaxError` is caught first and
reported as `"Syntax error in file: ..."`, any other exception (the I/O or
decode failure) as `"Error analyzing file: ..."`; no exception escapes. -/
def analyze_python_file (filepath : String) (readResult : Except String String)
    (parseResult : String → Except String (List Stmt)) : AnalysisResult :=
  match readResult with
  | .error e => .error ("Error analyzing file: " ++ e)
  | .ok code =>
    match parseResult code with
    | .error e => .error ("Syntax error in file: " ++ e)
    | .ok tree => .ok (mkSummary filepath code tree)

/-! The formatter `generate_summary_text`. -/

/-- The complexity bucket of chat.py lines 239-244. -/
def complexity_desc (c : Nat) : String :=
  if c < 50 then "simple" else if c < 150 then "moderate" else "complex"

/-- The `parts` list assembled by `generate_summary_text` for a success-state
analysis (chat.py lines 211-245). Note the Python truthiness gates: the
description line is emitted only for a present non-empty docstring, and the
imports/classes/functions sections only for non-empty lists. -/
def generate_summary_parts (a : Summary) : List String :=
  (["File: " ++ a.filename,
    "Total lines: " ++ toString a.total_lines ++ ", Code lines: " ++ toString a.code_lines]
    ++ (match a.docstring with
        | some d => if d = "" then [] else ["Description: " ++ d.take 100]
        | none => [])
    ++ (if a.imports.isEmpty then []
        else ["Uses " ++ toString a.imports.length ++ " libraries including: "
          ++ String.intercalate ", " (a.imports.take 5)])
    ++ (if a.classes.isEmpty then []
        else ("Contains " ++ toString a.classes.length ++ " classes:")
          :: (a.classes.take 3).map fun c =>
              "  - " ++ c.name ++ " with " ++ toString c.methods.length ++ " methods")
    ++ (if a.functions.isEmpty then []
        else ("Contains " ++ toString a.functions.length ++ " functions:")
          :: (a.functions.take 5).map fun f =>
              "  - " ++ f.name ++ "("
                ++ (if f.args.isEmpty then "no args" else String.intercalate ", " f.args)
                ++ ")"))
  ++ ["Code complexity: " ++ complexity_desc a.complexity]

/-- `generate_summary_text` (chat.py lines 206-247): the error message alone
in the error state, otherwise the parts joined with newlines. -/
def generate_summary_text : AnalysisResult → String
  | .error msg => msg
  | .ok a => String.intercalate "\n" (generate_summary_parts a)

/-! Directory discovery, `find_python_files`. -/

/-- A directory tree: a file name, or a directory name with its entries. -/
inductive FSEntry where
  | file (name : String)
  | dir (name : String) (entries : List FSEntry)

/-- The directory names pruned by `find_python_files` (chat.py line 255). -/
def EXCLUDED_DIRS : List String := [".git", "__pycache__", "venv", "env", "node_modules"]

/-- Python `str.endswith` for a fixed suffix, by characters. -/
def endsWithChars (suffix : List Char) (n : String) : Bool :=
  List.isSuffixOf suffix n.data

/-- The `.py` files directly in a directory's entry list, in enumeration
order (`for file in files: if file.endswith('.py')`, chat.py lines 256-258). -/
def pyFilesHere (es : List FSEntry) : List String :=
  es.filterMap fun e =>
    match e with
    | .file n => if endsWithChars ['.', 'p', 'y'] n then some n else none
    | .dir _ _ => none

mutual

/-- `find_python_files` from a directory with the given entries: the paths
are component lists relative to the starting directory (`os.path.join`
prepends each directory name on descent). `os.walk(topdown)` first yields the
current directory, producing its matching files, then descends into each
subdirectory surviving the in-place pruning
`dirs[:] = [d for d in dirs if d not in [...]]` (chat.py lines 250-259). -/
def walkEntries (es : List FSEntry) : List (List String) :=
  (pyFilesHere es).map (fun n => [n]) ++ walkSubs es

/-- Descend into the non-pruned subdirectories in enumeration order. -/
def walkSubs : List FSEntry → List (List String)
  | [] => []
  | .file _ :: rest => walkSubs rest
  | .dir n sub :: rest =>
    (if n ∈ EXCLUDED_DIRS then [] else (walkEntries sub).map fun p => n :: p)
      ++ walkSubs rest

end

/-! The comparison deltas of `compare_files_command`. -/

/-- The three `Differences` figures of the comparison report
(chat.py lines 370-372). Derived, not stored. -/
structure ComparisonResult where
  lines_diff : Int
  functions_diff : Int
  classes_diff : Int
deriving DecidableEq

/-- The deltas computed by `compare_files_command` for two success-state
analyses: `abs` of the differences of total line counts, function counts and
class counts (chat.py lines 370-372). -/
def compare_files_deltas (a b : Summary) : ComparisonResult :=
  { lines_diff := |(a.total_lines : Int) - (b.total_lines : Int)|
    functions_diff := |(a.functions.length : Int) - (b.functions.length : Int)|
    classes_diff := |(a.classes.length : Int) - (b.classes.length : Int)| }

/-! Traversal collectors: pre-order lists of the function and class records
the visitor appends, used to characterise the traversal. -/

mutual

/-- The `FunctionInfo` records contributed by one statement, in traversal
order: a function node contributes its own record followed by those of its
body; class and compound nodes contribute their bodies' records. -/
def fnsOfStmt : Stmt → List FunctionInfo
  | .functionDef isAsync name args decs body line =>
    funcInfoOf isAsync name args decs body line :: fnsOfStmts body
  | .classDef _ _ body _ => fnsOfStmts body
  | .compound body => fnsOfStmts body
  | _ => []

/-- The `FunctionInfo` records contributed by a statement list, in order. -/
def fnsOfStmts : List Stmt → List FunctionInfo
  | [] => []
  | s :: rest => fnsOfStmt s ++ fnsOfStmts rest

end

mutual

/-- The `ClassInfo` records contributed by one statement, in traversal
order. -/
def clsOfStmt : Stmt → List ClassInfo
  | .classDef name bases body line => classInfoOf name bases body line :: clsOfStmts body
  | .functionDef _ _ _ _ body _ => clsOfStmts body
  | .compound body => clsOfStmts body
  | _ => []

/-- The `ClassInfo` records contributed by a statement list, in order. -/
def clsOfStmts : List Stmt → List ClassInfo
  | [] => []
  | s :: rest => clsOfStmt s ++ clsOfStmts rest

end

/-- The nested statements `generic_visit` recurses into from a statement. -/
def childBody : Stmt → List Stmt
  | .functionDef _ _ _ _ body _ => body
  | .classDef _ _ body _ => body
  | .compound body => body
  | _ => []

/-- A statement occurs in a statement list: directly, or nested inside the
child body of an occurring statement. -/
inductive OccursIn : Stmt → List Stmt → Prop where
  | here {s : Stmt} {l : List Stmt} : s ∈ l → OccursIn s l
  | nested {k s : Stmt} {l : List Stmt} :
      OccursIn k l → OccursIn s (childBody k) → OccursIn s l

/-! Lemmas characterising the traversal. -/

mutual

theorem visit_fields (st : CodeAnalyzer) (s : Stmt) :
    (visit st s).functions = st.functions ++ fnsOfStmt s ∧
    (visit st s).classes = st.classes ++ clsOfStmt s ∧
    (visit st s).docstring = st.docstring := by
  cases s with
  | functionDef isAsync name args decs body line =>
    have h := visitList_fields
      { st with
        functions := st.functions ++ [funcInfoOf isAsync name args decs body line]
        complexity_score := st.complexity_score + body.length } body
    simpa [visit, fnsOfStmt, clsOfStmt] using h
  | classDef name bases body line =>
    have h := visitList_fields
      { st with
        classes := st.classes ++ [classInfoOf name bases body line]
        complexity_score := st.complexity_score + (methodNames body).length * 2 } body
    simpa [visit, fnsOfStmt, clsOfStmt] using h
  | importStmt names => simp [visit, fnsOfStmt, clsOfStmt]
  | importFrom module names => simp [visit, fnsOfStmt, clsOfStmt]
  | assign targets value => simp [visit, fnsOfStmt, clsOfStmt]
  | exprStmt value => simp [visit, fnsOfStmt, clsOfStmt]
  | compound body =>
    have h := visitList_fields st body
    simpa [visit, fnsOfStmt, clsOfStmt] using h

theorem visitList_fields (st : CodeAnalyzer) (l : List Stmt) :
    (visitList st l).functions = st.functions ++ fnsOfStmts l ∧
    (visitList st l).classes = st.classes ++ clsOfStmts l ∧
    (visitList st l).docstring = st.docstring := by
  cases l with
  | nil => simp [visitList, fnsOfStmts, clsOfStmts]
  | cons s rest =>
    obtain ⟨h1, h2, h3⟩ := visit_fields st s
    obtain ⟨g1, g2, g3⟩ := visitList_fields (visit st s) rest
    refine ⟨?_, ?_, ?_⟩
    · rw [visitList, g1, h1, fnsOfStmts, List.append_assoc]
    · rw [visitList, g2, h2, clsOfStmts, List.append_assoc]
    · rw [visitList, g3, h3]

end

theorem visitModule_functions (body : List Stmt) :
    (visitModule body).functions = fnsOfStmts body := by
  rw [visitModule]
  rcases h : get_docstring body with _ | d
  · simpa using (visitList_fields initAnalyzer body).1
  · by_cases hd : d = ""
    · simpa [hd] using (visitList_fields initAnalyzer body).1
    · simpa [hd] using
        (visitList_fields { initAnalyzer with docstring := some d } body).1

theorem visitModule_classes (body : List Stmt) :
    (visitModule body).classes = clsOfStmts body := by
  rw [visitModule]
  rcases h : get_docstring body with _ | d
  · simpa using (visitList_fields initAnalyzer body).2.1
  · by_cases hd : d = ""
    · simpa [hd] using (visitList_fields initAnalyzer body).2.1
    · simpa [hd] using
        (visitList_fields { initAnalyzer with docstring := some d } body).2.1

theorem visitModule_docstring (body : List Stmt) :
    (visitModule body).docstring =
      match get_docstring body with
      | some d => if d = "" then none else some d
      | none => none := by
  rw [visitModule]
  rcases h : get_docstring body with _ | d
  · simpa using (visitList_fields initAnalyzer body).2.2
  · by_cases hd : d = ""
    · simpa [hd] using (visitList_fields initAnalyzer body).2.2
    · simpa [hd] using
        (visitList_fields { initAnalyzer with docstring := some d } body).2.2

theorem clsOfStmts_append (l1 l2 : List Stmt) :
    clsOfStmts (l1 ++ l2) = clsOfStmts l1 ++ clsOfStmts l2 := by
  induction l1 with
  | nil => simp [clsOfStmts]
  | cons s rest ih => simp [clsOfStmts, ih]

theorem fnsOfStmts_append (l1 l2 : List Stmt) :
    fnsOfStmts (l1 ++ l2) = fnsOfStmts l1 ++ fnsOfStmts l2 := by
  induction l1 with
  | nil => simp [fnsOfStmts]
  | cons s rest ih => simp [fnsOfStmts, ih]

theorem clsOfStmts_childBody_subset (s : Stmt) :
    clsOfStmts (childBody s) ⊆ clsOfStmt s := by
  cases s <;> simp [childBody, clsOfStmt, clsOfStmts, List.subset_def]
  intro a ha
  exact Or.inr ha

theorem fnsOfStmts_childBody_subset (s : Stmt) :
    fnsOfStmts (childBody s) ⊆ fnsOfStmt s := by
  cases s <;> simp [childBody, fnsOfStmt, fnsOfStmts, List.subset_def]
  intro a ha
  exact Or.inr ha

theorem clsOfStmt_subset_of_mem {k : Stmt} {l : List Stmt} (h : k ∈ l) :
    clsOfStmt k ⊆ clsOfStmts l := by
  induction l with
  | nil => cases h
  | cons s rest ih =>
    rcases List.mem_cons.mp h with rfl | h2
    · simp only [clsOfStmts]
      exact List.subset_append_left _ _
    · simp only [clsOfStmts]
      exact (ih h2).trans (List.subset_append_right _ _)

theorem fnsOfStmt_subset_of_mem {k : Stmt} {l : List Stmt} (h : k ∈ l) :
    fnsOfStmt k ⊆ fnsOfStmts l := by
  induction l with
  | nil => cases h
  | cons s rest ih =>
    rcases List.mem_cons.mp h with rfl | h2
    · simp only [fnsOfStmts]
      exact List.subset_append_left _ _
    · simp only [fnsOfStmts]
      exact (ih h2).trans (List.subset_append_right _ _)

theorem clsOfStmt_subset_of_occurs {s : Stmt} {l : List Stmt} (h : OccursIn s l) :
    clsOfStmt s ⊆ clsOfStmts l := by
  induction h with
  | here hm => exact clsOfStmt_subset_of_mem hm
  | nested hk hs ihk ihs =>
    exact ihs.trans ((clsOfStmts_childBody_subset _).trans ihk)

theorem fnsOfStmt_subset_of_occurs {s : Stmt} {l : List Stmt} (h : OccursIn s l) :
    fnsOfStmt s ⊆ fnsOfStmts l := by
  induction h with
  | here hm => exact fnsOfStmt_subset_of_mem hm
  | nested hk hs ihk ihs =>
    exact ihs.trans ((fnsOfStmts_childBody_subset _).trans ihk)

/-! Lemmas about pruning during directory discovery. -/

mutual

theorem walkEntries_no_excluded (es : List FSEntry) (p : List String)
    (hp : p ∈ walkEntries es) (c : String) (hc : c ∈ p.dropLast) :
    c ∉ EXCLUDED_DIRS := by
  rw [walkEntries] at hp
  rcases List.mem_append.mp hp with h | h
  · obtain ⟨n, _, rfl⟩ := List.mem_map.mp h
    simp at hc
  · exact walkSubs_no_excluded es p h c hc

theorem walkSubs_no_excluded (es : List FSEntry) (p : List String)
    (hp : p ∈ walkSubs es) (c : String) (hc : c ∈ p.dropLast) :
    c ∉ EXCLUDED_DIRS := by
  cases es with
  | nil => simp [walkSubs] at hp
  | cons e rest =>
    cases e with
    | file n =>
      rw [walkSubs] at hp
      exact walkSubs_no_excluded rest p hp c hc
    | dir n sub =>
      rw [walkSubs] at hp
      rcases List.mem_append.mp hp with h | h
      · by_cases hn : n ∈ EXCLUDED_DIRS
        · rw [if_pos hn] at h
          cases h
        · rw [if_neg hn] at h
          obtain ⟨q, hq, rfl⟩ := List.mem_map.mp h
          cases q with
          | nil => simp at hc
          | cons q0 qrest =>
            rw [List.dropLast_cons₂] at hc
            rcases List.mem_cons.mp hc with rfl | hc2
            · exact hn
            · exact walkEntries_no_excluded sub _ hq c hc2
      · exact walkSubs_no_excluded rest p h c hc

end

/-! The claims. -/

/-- Claim C1: `analyze_python_file` confines every failure to its result's
error state. An I/O or decoding failure and a parse failure each produce
`AnalysisResult.error` carrying a message, and for source text that fails to
parse the result is never a success state (so in particular never a success
state with empty or default facts). The model is a total Lean function, so no
exception crosses the boundary on any input. -/
theorem analyze_python_file_error_state (fp : String)
    (rr : Except String String) (pr : String → Except String (List Stmt)) :
    (∀ e, rr = Except.error e →
      analyze_python_file fp rr pr = .error ("Error analyzing file: " ++ e)) ∧
    (∀ code e, rr = Except.ok code → pr code = Except.error e →
      analyze_python_file fp rr pr = .error ("Syntax error in file: " ++ e)) ∧
    (∀ code e s, rr = Except.ok code → pr code = Except.error e →
      analyze_python_file fp rr pr ≠ .ok s) := by
  refine ⟨?_, ?_, ?_⟩
  · intro e he
    subst he
    rfl
  · intro code e hr hp
    subst hr
    simp [analyze_python_file, hp]
  · intro code e s hr hp
    subst hr
    simp [analyze_python_file, hp]

theorem analyze_python_file_error_state_witness :
    analyze_python_file "bad.py" (Except.error "No such file or directory")
        (fun _ => Except.ok [])
      = .error "Error analyzing file: No such file or directory" ∧
    analyze_python_file "bad.py" (Except.ok "def f(:")
        (fun _ => Except.error "invalid syntax (bad.py, line 1)")
      = .error "Syntax error in file: invalid syntax (bad.py, line 1)" ∧
    analyze_python_file "bad.py" (Except.ok "def f(:")
        (fun _ => Except.error "invalid syntax (bad.py, line 1)")
      ≠ .ok (mkSummary "bad.py" "def f(:" []) :=
  ⟨(analyze_python_file_error_state "bad.py" _ _).1 _ rfl,
   (analyze_python_file_error_state "bad.py" _ _).2.1 _ _ rfl rfl,
   (analyze_python_file_error_state "bad.py" _ _).2.2 _ _ _ rfl rfl⟩

/-- Claim C2: for every source text that parses successfully, the result's
`total_lines` is the number of newline-delimited segments of the raw text,
which is its newline count plus one (so the empty text yields 1), and
`code_lines` — the count of lines whose stripped content is non-empty and
does not start with `#` — is at most `total_lines`. -/
theorem total_lines_counts_segments (fp code : String)
    (pr : String → Except String (List Stmt)) (tree : List Stmt)
    (hp : pr code = Except.ok tree) :
    ∃ s, analyze_python_file fp (Except.ok code) pr = .ok s ∧
      s.total_lines = (splitNl code.data).length ∧
      s.total_lines = code.data.count '\n' + 1 ∧
      s.code_lines = ((splitNl code.data).filter isCodeLine).length ∧
      s.code_lines ≤ s.total_lines := by
  refine ⟨mkSummary fp code tree, ?_, rfl, ?_, rfl, ?_⟩
  · simp [analyze_python_file, hp]
  · exact splitNl_length code.data
  · exact List.length_filter_le _ _

theorem total_lines_counts_segments_witness :
    ∃ s, analyze_python_file "a.py" (Except.ok "x = 1\n# c\n") (fun _ => Except.ok []) = .ok s ∧
      s.total_lines = (splitNl ("x = 1\n# c\n" : String).data).length ∧
      s.total_lines = ("x = 1\n# c\n" : String).data.count '\n' + 1 ∧
      s.code_lines = ((splitNl ("x = 1\n# c\n" : String).data).filter isCodeLine).length ∧
      s.code_lines ≤ s.total_lines :=
  total_lines_counts_segments "a.py" "x = 1\n# c\n" (fun _ => Except.ok []) [] rfl

/-- Claim C3: the summary's final line labels the complexity score `"simple"`
exactly when it is below 50, `"moderate"` when it is at least 50 and below
150, and `"complex"` when it is at least 150. -/
theorem summary_complexity_label (a : Summary) :
    (a.complexity < 50 →
      (generate_summary_parts a).getLast? = some "Code complexity: simple") ∧
    (50 ≤ a.complexity → a.complexity < 150 →
      (generate_summary_parts a).getLast? = some "Code complexity: moderate") ∧
    (150 ≤ a.complexity →
      (generate_summary_parts a).getLast? = some "Code complexity: complex") := by
  have hlast : (generate_summary_parts a).getLast? =
      some ("Code complexity: " ++ complexity_desc a.complexity) := by
    rw [generate_summary_parts, List.getLast?_concat]
  refine ⟨?_, ?_, ?_⟩
  · intro h
    rw [hlast, complexity_desc, if_pos h]
    decide
  · intro h1 h2
    rw [hlast, complexity_desc, if_neg (by omega), if_pos h2]
    decide
  · intro h
    rw [hlast, complexity_desc, if_neg (by omega), if_neg (by omega)]
    decide

/-- A minimal success-state summary with a given complexity score, for
exercising the formatter. -/
def sampleSummary (c : Nat) : Summary :=
  { filename := "a.py", total_lines := 1, code_lines := 1, functions := []
    classes := [], imports := [], global_vars := [], docstring := none
    complexity := c }

theorem summary_complexity_label_witness :
    (generate_summary_parts (sampleSummary 10)).getLast? = some "Code complexity: simple" ∧
    (generate_summary_parts (sampleSummary 50)).getLast? = some "Code complexity: moderate" ∧
    (generate_summary_parts (sampleSummary 150)).getLast? = some "Code complexity: complex" :=
  ⟨(summary_complexity_label (sampleSummary 10)).1 (by decide),
   (summary_complexity_label (sampleSummary 50)).2.1 (by decide) (by decide),
   (summary_complexity_label (sampleSummary 150)).2.2 (by decide)⟩

/-- Claim C4: the comparison deltas of `compare_files_command` are symmetric
in the two success-state analyses — swapping the inputs leaves all three
absolute differences unchanged — and each delta is a non-negative integer. -/
theorem compare_deltas_symmetric_nonneg (a b : Summary) :
    compare_files_deltas a b = compare_files_deltas b a ∧
    0 ≤ (compare_files_deltas a b).lines_diff ∧
    0 ≤ (compare_files_deltas a b).functions_diff ∧
    0 ≤ (compare_files_deltas a b).classes_diff := by
  refine ⟨?_, abs_nonneg _, abs_nonneg _, abs_nonneg _⟩
  simp [compare_files_deltas, ComparisonResult.mk.injEq, abs_sub_comm]

/-- Claim C5: for every source that parses successfully, the imports list and
the global-variable list of the success-state result contain no duplicate
names (they are built with `list(set(...))`). -/
theorem imports_global_vars_nodup (fp code : String)
    (pr : String → Except String (List Stmt)) (tree : List Stmt)
    (hp : pr code = Except.ok tree) :
    ∃ s, analyze_python_file fp (Except.ok code) pr = .ok s ∧
      s.imports.Nodup ∧ s.global_vars.Nodup := by
  refine ⟨mkSummary fp code tree, ?_, ?_, ?_⟩
  · simp [analyze_python_file, hp]
  · exact List.nodup_dedup _
  · exact List.nodup_dedup _

theorem imports_global_vars_nodup_witness :
    ∃ s, analyze_python_file "a.py" (Except.ok "import os\nimport os\n")
        (fun _ => Except.ok [Stmt.importStmt ["os"], Stmt.importStmt ["os"]]) = .ok s ∧
      s.imports.Nodup ∧ s.global_vars.Nodup :=
  imports_global_vars_nodup "a.py" "import os\nimport os\n" _
    [Stmt.importStmt ["os"], Stmt.importStmt ["os"]] rfl

/-- Claim C6: file discovery never returns a path lying inside a directory
named `.git`, `__pycache__`, `venv`, `env` or `node_modules`, at any depth
(every directory component of every returned path avoids the excluded names),
and the contents of such a directory are never visited (the walk's output
does not depend on them: an excluded subdirectory contributes exactly what
its absence would). -/
theorem find_python_files_prunes :
    (∀ (es : List FSEntry) (p : List String), p ∈ walkEntries es →
      ∀ c ∈ p.dropLast, c ∉ EXCLUDED_DIRS) ∧
    (∀ (n : String) (sub rest : List FSEntry), n ∈ EXCLUDED_DIRS →
      walkSubs (FSEntry.dir n sub :: rest) = walkSubs rest) := by
  constructor
  · exact fun es p hp c hc => walkEntries_no_excluded es p hp c hc
  · intro n sub rest hn
    rw [walkSubs, if_pos hn]
    rfl

theorem find_python_files_prunes_witness :
    ("pkg" : String) ∉ EXCLUDED_DIRS ∧
    walkSubs [FSEntry.dir ".git" [FSEntry.file "a.py"]] = walkSubs [] :=
  ⟨find_python_files_prunes.1 [FSEntry.dir "pkg" [FSEntry.file "a.py"]]
      ["pkg", "a.py"] (by simp only [walkEntries, walkSubs]; decide) "pkg" (by decide),
   find_python_files_prunes.2 ".git" [FSEntry.file "a.py"] [] (by decide)⟩

/-- Claim C7 (code bug): `visit_Assign` is reached through the unconditional
`generic_visit` recursion, so a simple-name assignment nested inside a
function (or class) body is recorded as a "global variable": on the source
`def f():\n    x = 1\n` the function-local `x` lands in the result's
global-variable set, although the method's own docstring says it tracks
global variable assignments and the result key is `global_vars`. -/
theorem global_vars_records_nested_assignment :
    (mkSummary "t.py" "def f():\n    x = 1\n"
        [Stmt.functionDef false "f" [] []
          [Stmt.assign [PExpr.name "x"] PExpr.constOther] 1]).global_vars
      = ["x"] := by
  decide

/-- Claim C8 counterexample: a module whose first statement is the string
literal `" hi"` gets description `"hi"` — `ast.get_docstring` cleans the
literal's indentation — so the description is not the literal verbatim. -/
theorem module_docstring_not_verbatim :
    (visitModule [Stmt.exprStmt (PExpr.constStr " hi")]).docstring = some "hi" ∧
    some ("hi" : String) ≠ some (" hi" : String) :=
  ⟨rfl, by decide⟩

/-- Claim C8 (amended): for every parsed source whose top-level node has a
leading string-literal expression as its first statement, the module
description equals the indentation-cleaned form of that literal
(`inspect.cleandoc`: tabs expanded, first line left-stripped, the common
margin of the remaining non-blank lines removed, trailing and leading blank
lines dropped), provided that cleaned form is non-empty; otherwise — no
leading string literal, or a literal whose cleaned form is empty — the
description is absent. -/
theorem module_docstring_cleandoc (body : List Stmt) :
    (visitModule body).docstring =
      match body with
      | Stmt.exprStmt (PExpr.constStr s) :: _ =>
        if cleandoc s = "" then none else some (cleandoc s)
      | _ => none := by
  rw [visitModule_docstring]
  cases body with
  | nil => rfl
  | cons s rest =>
    cases s with
    | exprStmt v => cases v <;> rfl
    | functionDef _ _ _ _ _ _ => rfl
    | classDef _ _ _ _ => rfl
    | importStmt _ => rfl
    | importFrom _ _ => rfl
    | assign _ _ => rfl
    | compound _ => rfl

/-- Claim C9 counterexample: a decorator that is a bare attribute access —
`@abc.abstractmethod` — does not resolve to the recursive dotted form
`"abc.abstractmethod"`; `_get_decorator_name` only treats names and calls and
falls back to `str(decorator)`, the node-object rendering. -/
theorem decorator_attribute_not_qualified :
    get_decorator_name (PExpr.attribute (PExpr.name "abc") "abstractmethod")
      = "<ast.Attribute object>" ∧
    get_decorator_name (PExpr.attribute (PExpr.name "abc") "abstractmethod")
      ≠ "abc.abstractmethod" :=
  ⟨rfl, by decide⟩

/-- Claim C9 (amended): base-class resolution (`_get_name`) maps a bare name
to itself, an attribute access to the recursive resolution of its base joined
with `.` and the attribute, and every other expression shape to the
`str(node)` object rendering (the node's kind, not the expression's source
form). Decorator resolution (`_get_decorator_name`) maps a bare name to
itself, a call to the resolution of its callee, and every other shape —
including a bare attribute access — to the object rendering. Both functions
are total over all expression shapes: resolution never raises. -/
theorem name_resolution_characterisation :
    (∀ id0, get_name (PExpr.name id0) = id0) ∧
    (∀ v attr, get_name (PExpr.attribute v attr) = get_name v ++ "." ++ attr) ∧
    (∀ f args, get_name (PExpr.call f args) = strNode (PExpr.call f args)) ∧
    (∀ s, get_name (PExpr.constStr s) = strNode (PExpr.constStr s)) ∧
    (get_name PExpr.constOther = strNode PExpr.constOther) ∧
    (∀ elts, get_name (PExpr.tuple elts) = strNode (PExpr.tuple elts)) ∧
    (∀ v, get_name (PExpr.subscript v) = strNode (PExpr.subscript v)) ∧
    (∀ id0, get_decorator_name (PExpr.name id0) = id0) ∧
    (∀ f args, get_decorator_name (PExpr.call f args) = get_name f) ∧
    (∀ v attr, get_decorator_name (PExpr.attribute v attr)
      = strNode (PExpr.attribute v attr)) ∧
    (∀ s, get_decorator_name (PExpr.constStr s) = strNode (PExpr.constStr s)) ∧
    (get_decorator_name PExpr.constOther = strNode PExpr.constOther) ∧
    (∀ elts, get_decorator_name (PExpr.tuple elts) = strNode (PExpr.tuple elts)) ∧
    (∀ v, get_decorator_name (PExpr.subscript v) = strNode (PExpr.subscript v)) :=
  ⟨fun _ => rfl, fun _ _ => rfl, fun _ _ => rfl, fun _ => rfl, rfl,
   fun _ => rfl, fun _ => rfl, fun _ => rfl, fun _ _ => rfl, fun _ _ => rfl,
   fun _ => rfl, rfl, fun _ => rfl, fun _ => rfl⟩

/-- Claim C10: every function or async function declared directly in a class
body is recorded twice — its name appears in that class's method list, and
its own `FunctionInfo` (built by `visit_FunctionDef` when `generic_visit`
descends into the class body) appears in the result's functions sequence —
so the reported function count and per-function complexity contributions
include class methods. -/
theorem class_methods_recorded_twice
    (modBody : List Stmt) (k : Stmt) (hk : OccursIn k modBody)
    (cname : String) (bases : List PExpr) (kbody : List Stmt) (kline : Nat)
    (hkc : k = Stmt.classDef cname bases kbody kline)
    (s : Stmt) (hs : s ∈ kbody)
    (isAsync : Bool) (fname : String) (fargs : List String) (fdecs : List PExpr)
    (fbody : List Stmt) (fline : Nat)
    (hsf : s = Stmt.functionDef isAsync fname fargs fdecs fbody fline) :
    fname ∈ (classInfoOf cname bases kbody kline).methods ∧
    classInfoOf cname bases kbody kline ∈ (visitModule modBody).classes ∧
    funcInfoOf isAsync fname fargs fdecs fbody fline ∈ (visitModule modBody).functions := by
  subst hkc
  subst hsf
  refine ⟨?_, ?_, ?_⟩
  · simp only [classInfoOf, methodNames, List.mem_filterMap]
    exact ⟨_, hs, rfl⟩
  · rw [visitModule_classes]
    apply clsOfStmt_subset_of_occurs hk
    simp [clsOfStmt]
  · rw [visitModule_functions]
    have hsOcc : OccursIn (Stmt.functionDef isAsync fname fargs fdecs fbody fline) modBody :=
      OccursIn.nested hk (OccursIn.here (by simpa [childBody] using hs))
    apply fnsOfStmt_subset_of_occurs hsOcc
    simp [fnsOfStmt]

/-- A one-class one-method module for exercising the traversal. -/
def oneClassModule : List Stmt :=
  [Stmt.classDef "C" [] [Stmt.functionDef false "m" ["self"] [] [] 2] 1]

theorem class_methods_recorded_twice_witness :
    "m" ∈ (classInfoOf "C" [] [Stmt.functionDef false "m" ["self"] [] [] 2] 1).methods ∧
    classInfoOf "C" [] [Stmt.functionDef false "m" ["self"] [] [] 2] 1
      ∈ (visitModule oneClassModule).classes ∧
    funcInfoOf false "m" ["self"] [] [] 2 ∈ (visitModule oneClassModule).functions :=
  class_methods_recorded_twice oneClassModule
    (Stmt.classDef "C" [] [Stmt.functionDef false "m" ["self"] [] [] 2] 1)
    (OccursIn.here (List.Mem.head _))
    "C" [] [Stmt.functionDef false "m" ["self"] [] [] 2] 1 rfl
    (Stmt.functionDef false "m" ["self"] [] [] 2) (List.Mem.head _)
    false "m" ["self"] [] [] 2 rfl

end Nova
